import Mathlib

/-!
# purehttpspace: the in-memory user registry and its two handlers

A shallow embedding of `src/main.go`.

* The package-level variables `userCache` (a `map[int]User`) and `nextID`
  (an `int`) form the state `Registry`.  A Go map is a finite partial function,
  so `userCache` is a function `Int → Option User`; `userCache[k] = v` is
  `Function.update`, and the two-valued lookup `v, ok := userCache[k]` is
  application (`none` is `ok = false`).
* `nextID` is an `Int`.  Go's `int` is 64 bits wide here and `nextID++` wraps at
  `2 ^ 63 - 1` (`incrInt64`).  The process starts at `nextID = 0` and every create
  stores one more map entry, so it exhausts its address space long before the
  counter gets there; `registryCreate` therefore adds 1 without reducing modulo
  `2 ^ 64`, which is what the code computes in every state reached from the empty
  registry by fewer than `2 ^ 63 - 1` creates (`incrInt64_run`).  The statements
  about identifiers are about states reached from the empty registry.
* `createUsers` and `getUser` take the state and return the new state together
  with the response written to the `http.ResponseWriter`.
* What `json.Decoder.Decode` made of the request body is an input of
  `createUsers` (`DecodeOutcome`); `strconv.Atoi` is embedded for 64-bit `int`.
* The mutex makes lines 77-80 one atomic step.  The single-request functions
  run a handler from start to end; `Sys` interleaves the steps of several
  create requests.
-/

namespace PureHttpSpace

/-! ## Data model -/

/-- The record type `User` (main.go, lines 14-16). -/
structure User where
  Name : String
deriving DecidableEq, Repr

/-- The shared state: `userCache` and `nextID` (main.go, lines 18-22). -/
structure Registry where
  userCache : Int → Option User
  nextID : Int

/-- The state at process start: `make(map[int]User)` and the zero value of `nextID`. -/
def emptyRegistry : Registry :=
  { userCache := fun _ => none, nextID := 0 }

/-- What a handler wrote as the response body. -/
inductive Body where
  | text (msg : String)
  | created (id : Int) (name : String)
  | user (u : User)
deriving DecidableEq, Repr

/-- A response: the status code and the body. -/
structure Response where
  status : Nat
  body : Body
deriving DecidableEq, Repr

def StatusOK : Nat := 200
def StatusCreated : Nat := 201
def StatusBadRequest : Nat := 400
def StatusNotFound : Nat := 404

/-- The library call `http.Error(w, msg, code)`: a plain-text reply with the given status. -/
def httpError (msg : String) (code : Nat) : Response :=
  { status := code, body := Body.text msg }

/-! ## `strconv.Atoi` for a 64-bit `int` -/

/-- The two kinds of `*strconv.NumError`. -/
inductive NumError where
  | ErrSyntax
  | ErrRange
deriving DecidableEq, Repr

deriving instance DecidableEq for Except

/-- The width of `int`. -/
def intSize : Nat := 64

/-- The digit test of both loops: `'0' <= c && c <= '9'`. -/
def isDigit (c : Char) : Bool :=
  decide ('0'.toNat ≤ c.toNat) && decide (c.toNat ≤ '9'.toNat)

/-- The value `c - '0'` of a digit. -/
def digitVal (c : Char) : Nat :=
  c.toNat - '0'.toNat

/-- The loop of the fast path of `Atoi`: `n = n*10 + int(ch)`, a syntax error at the
first character that is not a digit. -/
def fastLoop : List Char → Nat → Except NumError Nat
  | [], n => Except.ok n
  | c :: cs, n =>
    if isDigit c then fastLoop cs (n * 10 + digitVal c) else Except.error NumError.ErrSyntax

/-- The constant `maxUint64`. -/
def maxUint64 : Nat := 2 ^ 64 - 1

/-- The loop of `ParseUint` for base 10 and 64 bits, on `uint64` arithmetic: a syntax
error at a character that is not a digit, a range error when `n*10` or `n*10 + d`
leaves the `uint64` range. -/
def parseUintLoop : List Char → Nat → Except NumError Nat
  | [], n => Except.ok n
  | c :: cs, n =>
    if isDigit c then
      if n ≥ maxUint64 / 10 + 1 then Except.error NumError.ErrRange
      else
        let n10 := (n * 10) % 2 ^ 64
        let n1 := (n10 + digitVal c) % 2 ^ 64
        if n1 < n10 ∨ n1 > maxUint64 then Except.error NumError.ErrRange
        else parseUintLoop cs n1
    else Except.error NumError.ErrSyntax

/-- The library function `strconv.ParseUint(s, 10, 0)`: no sign is permitted and the
empty string is a syntax error. -/
def ParseUint (s : List Char) : Except NumError Nat :=
  if s = [] then Except.error NumError.ErrSyntax else parseUintLoop s 0

/-- The library function `strconv.ParseInt(s, 10, 0)`: picks off one leading sign,
converts the rest unsigned and checks it against the `int64` range. -/
def ParseInt (s : List Char) : Except NumError Int :=
  match s with
  | [] => Except.error NumError.ErrSyntax
  | c :: cs =>
    let neg := decide (c = '-')
    let rest := if c = '+' ∨ c = '-' then cs else c :: cs
    match ParseUint rest with
    | Except.error e => Except.error e
    | Except.ok un =>
      let cutoff := 2 ^ (intSize - 1)
      if ¬ neg ∧ un ≥ cutoff then Except.error NumError.ErrRange
      else if neg ∧ un > cutoff then Except.error NumError.ErrRange
      else Except.ok (if neg then - (un : Int) else (un : Int))

/-- The library function `strconv.Atoi`: strings of 1 to 18 bytes take the fast
path (a sign, then digits that cannot overflow), all others go through `ParseInt`.
`len(s)` counts bytes, so it is the UTF-8 size; a character outside ASCII is made of
bytes above `0x7f`, none of which is a sign or a digit. -/
def Atoi (s : String) : Except NumError Int :=
  let sLen := s.utf8ByteSize
  if 0 < sLen ∧ sLen < 19 then
    match s.data with
    | [] => Except.error NumError.ErrSyntax
    | c :: cs =>
      let signed := decide (c = '-' ∨ c = '+')
      if signed ∧ cs = [] then Except.error NumError.ErrSyntax
      else
        match fastLoop (if signed then cs else c :: cs) 0 with
        | Except.error e => Except.error e
        | Except.ok n => Except.ok (if c = '-' then - (n : Int) else (n : Int))
  else ParseInt s.data

/-! ## The create handler -/

/-- What `json.NewDecoder(r.Body).Decode(&user)` made of the request body: an error,
or a decoded object that assigns the field `name` or leaves it untouched. -/
inductive DecodeOutcome where
  | failed (err : String)
  | object (name : Option String)
deriving DecidableEq, Repr

/-- The statement `Decode(&user)` on a `User` variable: the field is overwritten only
when the body carries it. -/
def Decode (body : DecodeOutcome) (user : User) : Except String User :=
  match body with
  | DecodeOutcome.failed err => Except.error err
  | DecodeOutcome.object none => Except.ok user
  | DecodeOutcome.object (some n) => Except.ok { user with Name := n }

/-- The statement `nextID++` (main.go, line 78) on Go's 64-bit `int`: the successor,
wrapped into the range from `-2 ^ 63` to `2 ^ 63 - 1`. -/
def incrInt64 (n : Int) : Int :=
  (n + 1 + 2 ^ 63) % 2 ^ 64 - 2 ^ 63

/-- Registry create, the critical section of `createUsers` (main.go, lines 77-80):
`nextID++` and `userCache[nextID] = user` under the exclusive lock.  The first
component is the key used by the store of line 79, the second the new state.  The
increment is the plain successor: it is `incrInt64` as long as the counter is below
`2 ^ 63 - 1`, which covers the states the process can reach from the empty registry. -/
def registryCreate (user : User) (st : Registry) : Int × Registry :=
  let nextID := st.nextID + 1
  (nextID, { userCache := Function.update st.userCache nextID (some user), nextID := nextID })

/-- The success response of `createUsers` (main.go, lines 83-89): status 201 and the
map with "id" and "name"; "id" is `nextID` as read from the shared state at this
point, after the lock was released. -/
def createdResponse (user : User) (st : Registry) : Response :=
  { status := StatusCreated, body := Body.created st.nextID user.Name }

/-- The handler `createUsers` (main.go, lines 64-90), run without interruption. -/
def createUsers (body : DecodeOutcome) (st : Registry) : Registry × Response :=
  match Decode body { Name := "" } with
  | Except.error err => (st, httpError ("invalid JSON: " ++ err) StatusBadRequest)
  | Except.ok user =>
    if user.Name = "" then (st, httpError "Name is required" StatusBadRequest)
    else
      let st1 := (registryCreate user st).2
      (st1, createdResponse user st1)

/-! ## The read handler -/

/-- Registry get, the lookup of `getUser` (main.go, lines 100-102) under the shared
lock: the outcome of `user, ok := userCache[id]` and the state afterwards. -/
def registryGet (id : Int) (st : Registry) : Option User × Registry :=
  (st.userCache id, st)

/-- The handler `getUser` (main.go, lines 92-113); `idStr` is `r.PathValue("id")`. -/
def getUser (idStr : String) (st : Registry) : Registry × Response :=
  match Atoi idStr with
  | Except.error _ => (st, httpError "invalid user id" StatusBadRequest)
  | Except.ok id =>
    match registryGet id st with
    | (none, st1) => (st1, httpError "user not found" StatusNotFound)
    | (some user, st1) => (st1, { status := StatusOK, body := Body.user user })

/-! ## Sequences of registry operations -/

/-- One operation on the registry. -/
inductive Op where
  | create (user : User)
  | get (id : Int)
deriving DecidableEq, Repr

/-- The state after one operation. -/
def Op.apply : Op → Registry → Registry
  | Op.create u, st => (registryCreate u st).2
  | Op.get id, st => (registryGet id st).2

/-- The state after a sequence of operations, one after another. -/
def run : List Op → Registry → Registry
  | [], st => st
  | op :: ops, st => run ops (op.apply st)

/-- The identifiers issued along a sequence of operations: the key of every create,
in the order of the creates. -/
def issued : List Op → Registry → List Int
  | [], _ => []
  | Op.create u :: ops, st => (registryCreate u st).1 :: issued ops (registryCreate u st).2
  | Op.get id :: ops, st => issued ops (registryGet id st).2

/-- The number of creates in a sequence of operations. -/
def creates : List Op → Nat
  | [] => 0
  | Op.create _ :: ops => creates ops + 1
  | Op.get _ :: ops => creates ops

/-! ## Interleaved create requests -/

/-- Where a create request that passed validation stands: before `cacheMutex.Lock()`
(line 77), after `cacheMutex.Unlock()` (line 80) with the response still to be built,
or finished with the response it wrote. -/
inductive CreateTask where
  | atLock (user : User)
  | unlocked (user : User)
  | replied (resp : Response)
deriving DecidableEq, Repr

/-- One step of a create request on the shared state: the critical section as a
whole (lines 77-80), then the response built from `nextID` as it is at that moment
(line 86).  A finished request does nothing. -/
def CreateTask.step : CreateTask → Registry → CreateTask × Registry
  | CreateTask.atLock u, st => (CreateTask.unlocked u, (registryCreate u st).2)
  | CreateTask.unlocked u, st => (CreateTask.replied (createdResponse u st), st)
  | CreateTask.replied r, st => (CreateTask.replied r, st)

/-- The shared registry and the create requests in flight. -/
structure Sys where
  reg : Registry
  tasks : List CreateTask

/-- The scheduler lets request `i` take its next step. -/
def Sys.step (i : Nat) (s : Sys) : Sys :=
  match s.tasks.get? i with
  | none => s
  | some t => { reg := (t.step s.reg).2, tasks := s.tasks.set i (t.step s.reg).1 }

/-- The run of a schedule: the list of the requests that step, in order. -/
def Sys.run : List Nat → Sys → Sys
  | [], s => s
  | i :: sched, s => Sys.run sched (s.step i)

/-- The identifier in a create response. -/
def responseId (t : CreateTask) : Option Int :=
  match t with
  | CreateTask.replied { status := _, body := Body.created id _ } => some id
  | _ => none

/-! ## The words of the specification on identifiers in the request path -/

/-- The value of a string of decimal digits. -/
def decimalValue (ds : List Char) : Nat :=
  ds.foldl (fun n c => n * 10 + digitVal c) 0

/-- A valid non-negative integer as the specification puts it: one or more decimal
digits and nothing else. -/
def isNonNegativeInteger (s : String) : Bool :=
  !s.data.isEmpty && s.data.all isDigit

/-- A decimal integer with an optional sign: one or more decimal digits, possibly after
one `+` or `-`. -/
def isSignedInteger (s : String) : Bool :=
  match s.data with
  | [] => false
  | c :: cs =>
    if c = '-' ∨ c = '+' then !cs.isEmpty && cs.all isDigit else (c :: cs).all isDigit

/-- The integer a signed decimal string denotes. -/
def signedValue (s : String) : Int :=
  match s.data with
  | [] => 0
  | c :: cs =>
    if c = '-' then - (decimalValue cs : Int)
    else if c = '+' then (decimalValue cs : Int)
    else (decimalValue (c :: cs) : Int)

/-! ## Lemmas on sequences of registry operations -/

theorem registryCreate_key (u : User) (st : Registry) :
    (registryCreate u st).1 = st.nextID + 1 := rfl

theorem registryCreate_nextID (u : User) (st : Registry) :
    (registryCreate u st).2.nextID = st.nextID + 1 := rfl

theorem registryCreate_lookup (u : User) (st : Registry) (k : Int) :
    (registryCreate u st).2.userCache k
      = if k = st.nextID + 1 then some u else st.userCache k := by
  simp [registryCreate, Function.update_apply]

theorem run_nextID (ops : List Op) (st : Registry) :
    (run ops st).nextID = st.nextID + (creates ops : Int) := by
  induction ops generalizing st with
  | nil => simp [run, creates]
  | cons op ops ih =>
    cases op with
    | create u =>
      simp only [run, Op.apply, creates, ih, registryCreate_nextID]
      push_cast
      ring
    | get id => simp [run, Op.apply, creates, ih, registryGet]

theorem run_nextID_le (ops : List Op) (st : Registry) :
    st.nextID ≤ (run ops st).nextID := by
  rw [run_nextID]
  omega

/-- Below the largest `int`, `nextID++` is the plain successor. -/
theorem incrInt64_eq (n : Int) (h0 : -2 ^ 63 ≤ n) (h1 : n < 2 ^ 63 - 1) :
    incrInt64 n = n + 1 := by
  unfold incrInt64
  omega

/-- In a state reached from the empty registry by fewer than `2 ^ 63 - 1` creates, the
increment of `registryCreate` is the one the 64-bit code computes. -/
theorem incrInt64_run (ops : List Op) (u : User) (h : creates ops < 2 ^ 63 - 1) :
    (registryCreate u (run ops emptyRegistry)).1
      = incrInt64 (run ops emptyRegistry).nextID := by
  have hn := run_nextID ops emptyRegistry
  simp only [emptyRegistry, zero_add] at hn
  have h2 : ((creates ops : Nat) : Int) < 2 ^ 63 - 1 := by
    have : (2 : Nat) ^ 63 - 1 = 9223372036854775807 := by norm_num
    omega
  rw [registryCreate_key, incrInt64_eq _ (by simp only [emptyRegistry]; omega)
    (by simp only [emptyRegistry]; omega)]

/-- A sequence of operations leaves every key up to the counter as it was. -/
theorem run_lookup_of_le (ops : List Op) (st : Registry) (k : Int) (hk : k ≤ st.nextID) :
    (run ops st).userCache k = st.userCache k := by
  induction ops generalizing st with
  | nil => rfl
  | cons op ops ih =>
    cases op with
    | create u =>
      simp only [run, Op.apply]
      rw [ih _ (by rw [registryCreate_nextID]; omega), registryCreate_lookup]
      have : k ≠ st.nextID + 1 := by omega
      simp [this]
    | get id => simpa [run, Op.apply, registryGet] using ih st hk

/-- The keys a sequence of operations adds are those above the old counter, up to the
new one. -/
theorem run_isSome (ops : List Op) (st : Registry) (k : Int) :
    ((run ops st).userCache k).isSome
      ↔ ((st.userCache k).isSome ∨ (st.nextID < k ∧ k ≤ (run ops st).nextID)) := by
  induction ops generalizing st with
  | nil =>
    simp only [run]
    constructor
    · intro h; exact Or.inl h
    · rintro (h | ⟨h1, h2⟩)
      · exact h
      · omega
  | cons op ops ih =>
    cases op with
    | create u =>
      simp only [run, Op.apply]
      rw [ih, registryCreate_lookup, registryCreate_nextID]
      have hle := run_nextID_le ops (registryCreate u st).2
      rw [registryCreate_nextID] at hle
      by_cases hk : k = st.nextID + 1
      · subst hk
        simp only [if_true, Option.isSome_some, true_or, true_iff]
        right
        omega
      · simp only [hk, if_false]
        constructor
        · rintro (h | ⟨h1, h2⟩)
          · exact Or.inl h
          · right; omega
        · rintro (h | ⟨h1, h2⟩)
          · exact Or.inl h
          · right; omega
    | get id => simpa [run, Op.apply, registryGet] using ih st

theorem issued_mem (ops : List Op) (st : Registry) (k : Int) :
    k ∈ issued ops st ↔ (st.nextID < k ∧ k ≤ (run ops st).nextID) := by
  induction ops generalizing st with
  | nil =>
    simp only [issued, run, List.not_mem_nil, false_iff]
    omega
  | cons op ops ih =>
    cases op with
    | create u =>
      simp only [issued, run, Op.apply, List.mem_cons, ih, registryCreate_key,
        registryCreate_nextID]
      have hle := run_nextID_le ops (registryCreate u st).2
      rw [registryCreate_nextID] at hle
      omega
    | get id => simpa [issued, run, Op.apply, registryGet] using ih st

theorem issued_nodup (ops : List Op) (st : Registry) : (issued ops st).Nodup := by
  induction ops generalizing st with
  | nil => simp [issued]
  | cons op ops ih =>
    cases op with
    | create u =>
      simp only [issued, List.nodup_cons]
      refine ⟨?_, ih _⟩
      rw [issued_mem, registryCreate_key, registryCreate_nextID]
      omega
    | get id => simpa [issued, registryGet] using ih st

/-! ## Lemmas on `strconv.Atoi` -/

theorem maxUint64_eq : maxUint64 = 18446744073709551615 := by decide

theorem digitVal_le (c : Char) (h : isDigit c = true) : digitVal c ≤ 9 := by
  simp only [isDigit, Bool.and_eq_true, decide_eq_true_eq] at h
  have h9 : '9'.toNat = 57 := by decide
  have h0 : '0'.toNat = 48 := by decide
  simp only [digitVal]
  omega

theorem foldl_digits_ge (ds : List Char) (n : Nat) :
    n ≤ ds.foldl (fun n c => n * 10 + digitVal c) n := by
  induction ds generalizing n with
  | nil => simp
  | cons c cs ih =>
    simp only [List.foldl_cons]
    have := ih (n * 10 + digitVal c)
    omega

theorem foldl_digits_lt (ds : List Char) (n m : Nat) (hd : ds.all isDigit = true)
    (hn : n < 10 ^ m) :
    ds.foldl (fun n c => n * 10 + digitVal c) n < 10 ^ (m + ds.length) := by
  induction ds generalizing n m with
  | nil => simpa using hn
  | cons c cs ih =>
    simp only [List.all_cons, Bool.and_eq_true] at hd
    simp only [List.foldl_cons, List.length_cons]
    have hc := digitVal_le c hd.1
    have h1 : n * 10 + digitVal c < 10 ^ (m + 1) := by
      rw [pow_succ]
      omega
    have := ih (n * 10 + digitVal c) (m + 1) hd.2 h1
    have e : m + 1 + cs.length = m + (cs.length + 1) := by omega
    rwa [e] at this

theorem fastLoop_eq (ds : List Char) (n : Nat) :
    fastLoop ds n
      = if ds.all isDigit = true then Except.ok (ds.foldl (fun n c => n * 10 + digitVal c) n)
        else Except.error NumError.ErrSyntax := by
  induction ds generalizing n with
  | nil => simp [fastLoop]
  | cons c cs ih =>
    by_cases hd : isDigit c = true
    · simp [fastLoop, hd, ih]
    · simp [fastLoop, hd]

theorem parseUintLoop_ok (ds : List Char) (n v : Nat) (hn : n ≤ maxUint64) :
    parseUintLoop ds n = Except.ok v
      ↔ (ds.all isDigit = true ∧ ds.foldl (fun n c => n * 10 + digitVal c) n = v
          ∧ v ≤ maxUint64) := by
  induction ds generalizing n with
  | nil =>
    simp only [parseUintLoop, List.all_nil, List.foldl_nil, true_and, Except.ok.injEq]
    constructor
    · intro h; subst h; exact ⟨rfl, hn⟩
    · intro h; exact h.1
  | cons c cs ih =>
    by_cases hd : isDigit c = true
    · have hc := digitVal_le c hd
      have hge := foldl_digits_ge cs (n * 10 + digitVal c)
      rw [maxUint64_eq] at hn
      by_cases hcut : n ≥ maxUint64 / 10 + 1
      · simp only [parseUintLoop, hd, if_true, hcut, List.all_cons, Bool.true_and,
          List.foldl_cons, false_iff, not_and, reduceCtorEq]
        intro _ hv
        rw [maxUint64_eq] at hcut ⊢
        omega
      · have h10 : (n * 10) % 2 ^ 64 = n * 10 := by
          rw [maxUint64_eq] at hcut
          apply Nat.mod_eq_of_lt
          norm_num
          omega
        by_cases hov : n * 10 + digitVal c < 2 ^ 64
        · have h1 : (n * 10 + digitVal c) % 2 ^ 64 = n * 10 + digitVal c :=
            Nat.mod_eq_of_lt hov
          have hle : n * 10 + digitVal c ≤ maxUint64 := by
            rw [maxUint64_eq]
            norm_num at hov
            omega
          have hcond : ¬ (n * 10 + digitVal c < n * 10 ∨ n * 10 + digitVal c > maxUint64) := by
            omega
          simp only [parseUintLoop, hd, if_true, hcut, if_false, h10, h1, hcond,
            List.all_cons, Bool.true_and, List.foldl_cons]
          exact ih _ hle
        · have h1 : (n * 10 + digitVal c) % 2 ^ 64 < n * 10 := by
            norm_num at hov ⊢
            rw [maxUint64_eq] at hcut
            omega
          simp only [parseUintLoop, hd, if_true, hcut, if_false, h10, h1, true_or,
            List.all_cons, Bool.true_and, List.foldl_cons, false_iff, not_and, reduceCtorEq]
          intro _ hv
          rw [maxUint64_eq]
          norm_num at hov
          omega
    · simp [parseUintLoop, hd]

theorem length_le_utf8ByteSize (cs : List Char) : cs.length ≤ String.utf8ByteSize ⟨cs⟩ := by
  simp only [String.utf8ByteSize]
  induction cs with
  | nil => simp [String.utf8ByteSize.go]
  | cons c cs ih =>
    simp only [String.utf8ByteSize.go, List.length_cons]
    have := Char.utf8Size_pos c
    omega

theorem ParseUint_ok (ds : List Char) (v : Nat) :
    ParseUint ds = Except.ok v
      ↔ (ds ≠ [] ∧ ds.all isDigit = true ∧ decimalValue ds = v ∧ v ≤ maxUint64) := by
  unfold ParseUint decimalValue
  by_cases h : ds = []
  · simp [h]
  · simp only [h, if_false, ne_eq, not_false_eq_true, true_and]
    exact parseUintLoop_ok ds 0 v (by rw [maxUint64_eq]; omega)

theorem ParseUint_error (ds : List Char) (e : NumError)
    (h : ParseUint ds = Except.error e) :
    ¬ (ds ≠ [] ∧ ds.all isDigit = true ∧ decimalValue ds ≤ maxUint64) := by
  rintro ⟨h1, h2, h3⟩
  have := (ParseUint_ok ds (decimalValue ds)).2 ⟨h1, h2, rfl, h3⟩
  rw [h] at this
  cases this

/-- The range check of `ParseInt` after the unsigned conversion of `rest`. -/
theorem signCheck_ok (neg : Bool) (rest : List Char) (v : Int) :
    (match ParseUint rest with
      | Except.error e => Except.error e
      | Except.ok un =>
        if ¬ neg ∧ un ≥ 2 ^ (intSize - 1) then Except.error NumError.ErrRange
        else if neg ∧ un > 2 ^ (intSize - 1) then Except.error NumError.ErrRange
        else Except.ok (if neg then - (un : Int) else (un : Int))) = Except.ok v
      ↔ (rest ≠ [] ∧ rest.all isDigit = true
          ∧ v = (if neg then - (decimalValue rest : Int) else (decimalValue rest : Int))
          ∧ -2 ^ 63 ≤ v ∧ v ≤ 2 ^ 63 - 1) := by
  have hsz : (2 : Nat) ^ (intSize - 1) = 9223372036854775808 := by decide
  cases h : ParseUint rest with
  | error e =>
    have hne := ParseUint_error rest e h
    simp only [false_iff, reduceCtorEq]
    rintro ⟨h1, h2, h3, h4, h5⟩
    apply hne
    refine ⟨h1, h2, ?_⟩
    rw [maxUint64_eq]
    cases neg <;> simp at h3 <;> omega
  | ok un =>
    obtain ⟨h1, h2, h3, h4⟩ := (ParseUint_ok rest un).1 h
    subst h3
    simp only [hsz, h1, h2, ne_eq, not_false_eq_true, true_and]
    cases neg
    · simp only [Bool.false_eq_true, not_false_eq_true, true_and, false_and, if_false]
      by_cases hr : decimalValue rest ≥ 9223372036854775808
      · simp only [hr, if_true, false_iff, reduceCtorEq]
        omega
      · simp only [hr, if_false, Except.ok.injEq]
        omega
    · simp only [not_true_eq_false, false_and, if_false, true_and, if_true]
      by_cases hr : decimalValue rest > 9223372036854775808
      · simp only [hr, if_true, false_iff, reduceCtorEq]
        omega
      · simp only [hr, if_false, Except.ok.injEq]
        omega

theorem ParseInt_ok (cs : List Char) (v : Int) :
    ParseInt cs = Except.ok v
      ↔ (isSignedInteger ⟨cs⟩ = true ∧ v = signedValue ⟨cs⟩
          ∧ -2 ^ 63 ≤ v ∧ v ≤ 2 ^ 63 - 1) := by
  cases cs with
  | nil => simp [ParseInt, isSignedInteger]
  | cons c cs =>
    simp only [ParseInt]
    rw [signCheck_ok]
    by_cases hm : c = '-'
    · subst hm
      simp [isSignedInteger, signedValue, List.isEmpty_iff, and_assoc]
    · by_cases hp : c = '+'
      · subst hp
        simp [isSignedInteger, signedValue, List.isEmpty_iff, and_assoc]
      · simp [isSignedInteger, signedValue, hm, hp]

theorem decimalValue_lt (ds : List Char) (hd : ds.all isDigit = true) (hl : ds.length ≤ 18) :
    decimalValue ds < 1000000000000000000 := by
  have h := foldl_digits_lt ds 0 0 hd (by norm_num)
  have h2 : 10 ^ (0 + ds.length) ≤ 10 ^ 18 := Nat.pow_le_pow_right (by norm_num) (by omega)
  have h3 : (10 : Nat) ^ 18 = 1000000000000000000 := by norm_num
  unfold decimalValue
  omega

/-- What `strconv.Atoi` accepts: exactly the signed decimal strings whose value fits
`int`, and it returns that value. -/
theorem Atoi_ok (s : String) (v : Int) :
    Atoi s = Except.ok v
      ↔ (isSignedInteger s = true ∧ v = signedValue s ∧ -2 ^ 63 ≤ v ∧ v ≤ 2 ^ 63 - 1) := by
  obtain ⟨cs⟩ := s
  unfold Atoi
  by_cases hlen : 0 < String.utf8ByteSize ⟨cs⟩ ∧ String.utf8ByteSize ⟨cs⟩ < 19
  · have hl := length_le_utf8ByteSize cs
    simp only [hlen, and_self, if_true]
    cases cs with
    | nil => simp [isSignedInteger]
    | cons c cs =>
      simp only [List.length_cons] at hl
      by_cases hm : c = '-'
      · subst hm
        by_cases hcs : cs = []
        · subst hcs
          simp [isSignedInteger]
        · by_cases hd : cs.all isDigit = true
          · have hv := decimalValue_lt cs hd (by omega)
            simp only [decimalValue] at hv
            simp [fastLoop_eq, hd, hcs, isSignedInteger, signedValue, decimalValue]
            omega
          · simp [fastLoop_eq, hd, hcs, isSignedInteger]
      · by_cases hp : c = '+'
        · subst hp
          by_cases hcs : cs = []
          · subst hcs
            simp [isSignedInteger]
          · by_cases hd : cs.all isDigit = true
            · have hv := decimalValue_lt cs hd (by omega)
              simp only [decimalValue] at hv
              simp [fastLoop_eq, hd, hcs, isSignedInteger, signedValue, decimalValue]
              omega
            · simp [fastLoop_eq, hd, hcs, isSignedInteger]
        · by_cases hd : (c :: cs).all isDigit = true
          · have hv := decimalValue_lt (c :: cs) hd (by simp only [List.length_cons]; omega)
            simp only [decimalValue, List.foldl_cons, Nat.zero_mul, Nat.zero_add] at hv
            simp [fastLoop_eq, hd, isSignedInteger, signedValue, decimalValue, hm, hp]
            omega
          · simp [fastLoop_eq, hd, isSignedInteger, hm, hp]
  · simp only [hlen, if_false]
    exact ParseInt_ok cs v

/-! ## Lemmas on the handlers -/

theorem createUsers_ok (name : String) (st : Registry) (hname : name ≠ "") :
    createUsers (DecodeOutcome.object (some name)) st
      = ((registryCreate { Name := name } st).2,
          { status := StatusCreated, body := Body.created (st.nextID + 1) name }) := by
  simp [createUsers, Decode, hname, createdResponse, registryCreate]

theorem getUser_state (idStr : String) (st : Registry) : (getUser idStr st).1 = st := by
  unfold getUser
  cases Atoi idStr with
  | error e => rfl
  | ok id =>
    simp only [registryGet]
    cases st.userCache id <;> rfl

theorem getUser_of_ok (idStr : String) (id : Int) (st : Registry)
    (h : Atoi idStr = Except.ok id) :
    getUser idStr st
      = match st.userCache id with
        | none => (st, httpError "user not found" StatusNotFound)
        | some user => (st, { status := StatusOK, body := Body.user user }) := by
  unfold getUser
  rw [h]
  simp only [registryGet]
  cases st.userCache id <;> rfl

theorem getUser_of_error (idStr : String) (e : NumError) (st : Registry)
    (h : Atoi idStr = Except.error e) :
    getUser idStr st = (st, httpError "invalid user id" StatusBadRequest) := by
  unfold getUser
  rw [h]

/-- Every call of the create handler acts on the registry as no operation or as one
registry create. -/
theorem createUsers_state (body : DecodeOutcome) (st : Registry) :
    (createUsers body st).1 = st
      ∨ ∃ u : User, u.Name ≠ "" ∧ (createUsers body st).1 = (Op.create u).apply st := by
  unfold createUsers
  cases Decode body { Name := "" } with
  | error err => exact Or.inl rfl
  | ok user =>
    by_cases hn : user.Name = ""
    · simp [hn]
    · right
      exact ⟨user, hn, by simp [hn, Op.apply]⟩

/-- A create request that is scheduled alone takes the two steps of `createUsers`. -/
theorem CreateTask_step_alone (name : String) (st : Registry) (hname : name ≠ "") :
    (CreateTask.atLock { Name := name }).step st
        = (CreateTask.unlocked { Name := name },
            (createUsers (DecodeOutcome.object (some name)) st).1)
      ∧ (CreateTask.unlocked { Name := name }).step
            (createUsers (DecodeOutcome.object (some name)) st).1
          = (CreateTask.replied (createUsers (DecodeOutcome.object (some name)) st).2,
              (createUsers (DecodeOutcome.object (some name)) st).1) := by
  rw [createUsers_ok name st hname]
  exact ⟨rfl, rfl⟩

/-- In every state reached from the empty registry the keys are `1, ..., nextID`. -/
theorem run_empty_isSome (ops : List Op) (k : Int) :
    ((run ops emptyRegistry).userCache k).isSome
      ↔ (1 ≤ k ∧ k ≤ (run ops emptyRegistry).nextID) := by
  rw [run_isSome]
  simp only [emptyRegistry, Option.isSome_none, Bool.false_eq_true, false_or]
  omega

/-- Run without another request in between, in a state reached from the empty
registry: the identifier the create handler answers leads a later get, after any
further operations, to the record with the submitted name. -/
theorem roundtrip_uninterrupted (ops more : List Op) (name idStr : String)
    (hname : name ≠ "")
    (hid : Atoi idStr = Except.ok ((run ops emptyRegistry).nextID + 1)) :
    (createUsers (DecodeOutcome.object (some name)) (run ops emptyRegistry)).2
        = { status := StatusCreated,
            body := Body.created ((run ops emptyRegistry).nextID + 1) name }
      ∧ (getUser idStr (run more
          (createUsers (DecodeOutcome.object (some name)) (run ops emptyRegistry)).1)).2
        = { status := StatusOK, body := Body.user { Name := name } } := by
  rw [createUsers_ok name _ hname]
  refine ⟨rfl, ?_⟩
  have hlook : (run more (registryCreate { Name := name } (run ops emptyRegistry)).2).userCache
      ((run ops emptyRegistry).nextID + 1) = some { Name := name } := by
    rw [run_lookup_of_le _ _ _ (by rw [registryCreate_nextID]), registryCreate_lookup]
    simp
  rw [getUser_of_ok idStr _ _ hid, hlook]

/-! ## The claims -/

/-- C1: in every state reached from the empty registry, the identifier under which a
create stores its record is strictly greater than every identifier issued by an
earlier create, hence different from each of them, and the record is stored under
it. -/
theorem create_id_strictly_increasing (ops : List Op) (u : User) (k : Int)
    (hk : k ∈ issued ops emptyRegistry) :
    k < (registryCreate u (run ops emptyRegistry)).1
      ∧ k ≠ (registryCreate u (run ops emptyRegistry)).1
      ∧ (registryCreate u (run ops emptyRegistry)).2.userCache
          (registryCreate u (run ops emptyRegistry)).1 = some u := by
  rw [issued_mem] at hk
  rw [registryCreate_key, registryCreate_lookup]
  refine ⟨by omega, by omega, by simp⟩

/-- C1 at a concrete input: after the create of "Ada" was issued 1, the create of
"Grace" stores under an identifier above 1. -/
theorem create_id_strictly_increasing_witness :
    (1 : Int) ∈ issued [Op.create { Name := "Ada" }] emptyRegistry
      ∧ (1 : Int) < (registryCreate { Name := "Grace" }
          (run [Op.create { Name := "Ada" }] emptyRegistry)).1 :=
  ⟨by decide,
    (create_id_strictly_increasing [Op.create { Name := "Ada" }] { Name := "Grace" } 1
      (by decide)).1⟩

/-- C2 (defect of the code): two create requests on the empty registry, scheduled so
that both critical sections run before either response is built.  The create of "Ada"
is answered identifier 2, its record is stored under key 1, and a later GET /users/2
answers 200 with the name "Grace": the identifier returned for "Ada" leads to the
record of another create.  The cause is the one of C4: the response reads `nextID`
again after the lock was released.  Run one after the other, POST "Ada", POST "Grace"
is answered 1 and 2, and GET /users/2 answers "Grace", GET /users/1 "Ada". -/
theorem concurrent_create_get_mismatch :
    (Sys.run [0, 1, 0, 1]
        { reg := emptyRegistry,
          tasks := [CreateTask.atLock { Name := "Ada" },
                    CreateTask.atLock { Name := "Grace" }] }).tasks.head?
      = some (CreateTask.replied { status := 201, body := Body.created 2 "Ada" })
    ∧ (getUser "2" (Sys.run [0, 1, 0, 1]
        { reg := emptyRegistry,
          tasks := [CreateTask.atLock { Name := "Ada" },
                    CreateTask.atLock { Name := "Grace" }] }).reg).2
      = { status := 200, body := Body.user { Name := "Grace" } }
    ∧ (getUser "1" (Sys.run [0, 1, 0, 1]
        { reg := emptyRegistry,
          tasks := [CreateTask.atLock { Name := "Ada" },
                    CreateTask.atLock { Name := "Grace" }] }).reg).2
      = { status := 200, body := Body.user { Name := "Ada" } }
    ∧ (createUsers (DecodeOutcome.object (some "Ada")) emptyRegistry).2
      = { status := 201, body := Body.created 1 "Ada" }
    ∧ (createUsers (DecodeOutcome.object (some "Grace"))
        (createUsers (DecodeOutcome.object (some "Ada")) emptyRegistry).1).2
      = { status := 201, body := Body.created 2 "Grace" }
    ∧ (getUser "2" (createUsers (DecodeOutcome.object (some "Grace"))
        (createUsers (DecodeOutcome.object (some "Ada")) emptyRegistry).1).1).2
      = { status := 200, body := Body.user { Name := "Grace" } }
    ∧ (getUser "1" (createUsers (DecodeOutcome.object (some "Grace"))
        (createUsers (DecodeOutcome.object (some "Ada")) emptyRegistry).1).1).2
      = { status := 200, body := Body.user { Name := "Ada" } } := by
  decide

/-- C3: in every state reached from the empty registry, a get of an integer that no
create was issued finds nothing, and the read handler answers 404; the integers not
issued are those at most 0 and those above `nextID`. -/
theorem get_unissued_not_found (ops : List Op) (k : Int)
    (hk : k ∉ issued ops emptyRegistry) :
    (k ≤ 0 ∨ (run ops emptyRegistry).nextID < k)
      ∧ (registryGet k (run ops emptyRegistry)).1 = none
      ∧ ∀ idStr, Atoi idStr = Except.ok k →
          getUser idStr (run ops emptyRegistry)
            = (run ops emptyRegistry, httpError "user not found" StatusNotFound) := by
  rw [issued_mem] at hk
  have hrange : k ≤ 0 ∨ (run ops emptyRegistry).nextID < k := by
    simp only [emptyRegistry] at hk ⊢
    omega
  have hnone : (run ops emptyRegistry).userCache k = none := by
    have h := run_empty_isSome ops k
    cases hc : (run ops emptyRegistry).userCache k with
    | none => rfl
    | some u =>
      rw [hc] at h
      simp only [Option.isSome_some, true_iff] at h
      omega
  refine ⟨hrange, hnone, ?_⟩
  intro idStr hid
  rw [getUser_of_ok idStr k _ hid, hnone]

/-- C3 at the scenario: after two creates, GET /users/999 answers 404. -/
theorem get_unissued_not_found_witness :
    (getUser "999"
        (run [Op.create { Name := "Ada" }, Op.create { Name := "Grace" }] emptyRegistry)).2
      = { status := 404, body := Body.text "user not found" } :=
  congrArg Prod.snd
    ((get_unissued_not_found [Op.create { Name := "Ada" }, Op.create { Name := "Grace" }] 999
      (by decide)).2.2 "999" (by decide))

/-- C4 (defect of the code): two create requests on the empty registry, scheduled so
that both critical sections run before either response is built.  The records are
stored under the keys 1 and 2, but both responses carry the identifier 2, because
each handler reads `nextID` again after it released the lock.  Run one after the
other, the same two requests are answered 1 and 2. -/
theorem concurrent_creates_same_id :
    (Sys.run [0, 1, 0, 1]
        { reg := emptyRegistry,
          tasks := [CreateTask.atLock { Name := "Ada" },
                    CreateTask.atLock { Name := "Grace" }] }).tasks.map responseId
      = [some 2, some 2]
    ∧ (Sys.run [0, 1, 0, 1]
        { reg := emptyRegistry,
          tasks := [CreateTask.atLock { Name := "Ada" },
                    CreateTask.atLock { Name := "Grace" }] }).reg.userCache 1
      = some { Name := "Ada" }
    ∧ (Sys.run [0, 1, 0, 1]
        { reg := emptyRegistry,
          tasks := [CreateTask.atLock { Name := "Ada" },
                    CreateTask.atLock { Name := "Grace" }] }).reg.userCache 2
      = some { Name := "Grace" }
    ∧ (Sys.run [0, 0, 1, 1]
        { reg := emptyRegistry,
          tasks := [CreateTask.atLock { Name := "Ada" },
                    CreateTask.atLock { Name := "Grace" }] }).tasks.map responseId
      = [some 1, some 2] := by
  decide

/-- C5 as stated fails: "-1" is not a non-negative integer, yet `strconv.Atoi`
parses it, the registry is consulted, and the answer is 404 "user not found", not
400 "invalid user id". -/
theorem getUser_signed_not_rejected :
    isNonNegativeInteger "-1" = false
      ∧ Atoi "-1" = Except.ok (-1)
      ∧ (getUser "-1" emptyRegistry).2 = { status := 404, body := Body.text "user not found" }
      ∧ (getUser "-1" emptyRegistry).2 ≠ httpError "invalid user id" StatusBadRequest := by
  decide

/-- C5 as amended: for every path segment that is not a decimal integer with an
optional sign, or whose value does not fit `int`, `getUser` answers 400 "invalid user
id" and leaves the registry as it was, whatever the registry holds; these are exactly
the strings on which `strconv.Atoi` returns an error, and the only ones answered so.
"abc" is one of them. -/
theorem getUser_invalid_id (s : String) (st : Registry)
    (h : isSignedInteger s = false ∨ signedValue s < -2 ^ 63 ∨ 2 ^ 63 - 1 < signedValue s) :
    getUser s st = (st, httpError "invalid user id" StatusBadRequest)
      ∧ (∃ e, Atoi s = Except.error e)
      ∧ (∀ t st1, (getUser t st1).2 = httpError "invalid user id" StatusBadRequest →
          (isSignedInteger t = false ∨ signedValue t < -2 ^ 63 ∨ 2 ^ 63 - 1 < signedValue t))
      ∧ isSignedInteger "abc" = false := by
  have herr : ∃ e, Atoi s = Except.error e := by
    cases ha : Atoi s with
    | error e => exact ⟨e, rfl⟩
    | ok v =>
      obtain ⟨h1, h2, h3, h4⟩ := (Atoi_ok s v).1 ha
      subst h2
      rcases h with h | h | h
      · rw [h1] at h; cases h
      · omega
      · omega
  refine ⟨?_, herr, ?_, by decide⟩
  · obtain ⟨e, he⟩ := herr
    exact getUser_of_error s e st he
  · intro t st1 ht
    by_contra hcon
    have hok : Atoi t = Except.ok (signedValue t) := by
      rw [Atoi_ok]
      refine ⟨?_, rfl, ?_, ?_⟩
      · cases hs : isSignedInteger t with
        | true => rfl
        | false => exact absurd (Or.inl hs) hcon
      · by_contra hlt
        exact hcon (Or.inr (Or.inl (by omega)))
      · by_contra hgt
        exact hcon (Or.inr (Or.inr (by omega)))
    rw [getUser_of_ok t _ st1 hok] at ht
    cases hc : st1.userCache (signedValue t) with
    | none =>
      rw [hc] at ht
      simp [httpError, StatusNotFound, StatusBadRequest] at ht
    | some u =>
      rw [hc] at ht
      simp [httpError, StatusOK, StatusBadRequest] at ht

/-- C5 as amended, at the scenario: GET /users/abc answers 400 "invalid user id". -/
theorem getUser_invalid_id_witness :
    getUser "abc" emptyRegistry
      = (emptyRegistry, { status := 400, body := Body.text "invalid user id" }) :=
  (getUser_invalid_id "abc" emptyRegistry (Or.inl (by decide))).1

/-- C6: a body that decodes to a record with an empty name, and a body without the
name field among them, is answered 400 "Name is required" and the registry is left
as it was; a body that decodes to a non-empty name is not answered 400. -/
theorem createUsers_validation (body : DecodeOutcome) (user : User) (st : Registry)
    (hdec : Decode body { Name := "" } = Except.ok user) :
    (user.Name = "" →
        createUsers body st = (st, httpError "Name is required" StatusBadRequest))
      ∧ (user.Name ≠ "" → (createUsers body st).2.status ≠ StatusBadRequest)
      ∧ createUsers (DecodeOutcome.object none) st
          = (st, httpError "Name is required" StatusBadRequest) := by
  refine ⟨?_, ?_, ?_⟩
  · intro hn
    simp [createUsers, hdec, hn]
  · intro hn
    simp [createUsers, hdec, hn, createdResponse, StatusCreated, StatusBadRequest]
  · simp [createUsers, Decode]

/-- C6 at the scenario: POST /users with the name "" answers 400 with the validation
message. -/
theorem createUsers_validation_witness :
    createUsers (DecodeOutcome.object (some "")) emptyRegistry
      = (emptyRegistry, { status := 400, body := Body.text "Name is required" }) :=
  (createUsers_validation (DecodeOutcome.object (some "")) { Name := "" } emptyRegistry
    rfl).1 rfl

/-- C7: in every state reached from the empty registry, the create handler, run
without another request in between, answers a non-empty name with status 201, the
submitted name, and as "id" the key under which the record was just stored, the old
`nextID` plus one. -/
theorem createUsers_created (ops : List Op) (name : String) (hname : name ≠ "") :
    (createUsers (DecodeOutcome.object (some name)) (run ops emptyRegistry)).2
        = { status := 201, body := Body.created ((run ops emptyRegistry).nextID + 1) name }
      ∧ (registryCreate { Name := name } (run ops emptyRegistry)).1
          = (run ops emptyRegistry).nextID + 1
      ∧ (createUsers (DecodeOutcome.object (some name)) (run ops emptyRegistry)).1
          = (registryCreate { Name := name } (run ops emptyRegistry)).2
      ∧ (createUsers (DecodeOutcome.object (some name)) (run ops emptyRegistry)).1.userCache
            ((run ops emptyRegistry).nextID + 1)
          = some { Name := name }
      ∧ (run ops emptyRegistry).userCache ((run ops emptyRegistry).nextID + 1) = none := by
  rw [createUsers_ok name _ hname]
  refine ⟨rfl, rfl, rfl, ?_, ?_⟩
  · simp [registryCreate_lookup]
  · have h := run_empty_isSome ops ((run ops emptyRegistry).nextID + 1)
    cases hc : (run ops emptyRegistry).userCache ((run ops emptyRegistry).nextID + 1) with
    | none => rfl
    | some u =>
      rw [hc] at h
      simp only [Option.isSome_some, true_iff] at h
      omega

/-- C7 at the scenario: on the empty registry, POST /users with the name "Ada"
answers 201 with id 1 and name "Ada". -/
theorem createUsers_created_witness :
    (createUsers (DecodeOutcome.object (some "Ada")) emptyRegistry).2
      = { status := 201, body := Body.created 1 "Ada" } :=
  (createUsers_created [] "Ada" (by decide)).1

/-- C8: in every state reached from the empty registry by creates and gets, the keys
of `userCache` are exactly `1, ..., nextID`, and each of them was issued by exactly
one create of the sequence. -/
theorem keyset_invariant (ops : List Op) (k : Int) :
    0 ≤ (run ops emptyRegistry).nextID
      ∧ (((run ops emptyRegistry).userCache k).isSome
          ↔ (1 ≤ k ∧ k ≤ (run ops emptyRegistry).nextID))
      ∧ (issued ops emptyRegistry).count k
          = (if ((run ops emptyRegistry).userCache k).isSome then 1 else 0)
      ∧ (run ops emptyRegistry).nextID = (creates ops : Int) := by
  have hn := run_nextID ops emptyRegistry
  have hkeys := run_empty_isSome ops k
  have hmem := issued_mem ops emptyRegistry k
  refine ⟨?_, hkeys, ?_, ?_⟩
  · rw [hn]
    simp [emptyRegistry]
  · by_cases hs : ((run ops emptyRegistry).userCache k).isSome = true
    · rw [if_pos hs]
      have hin : k ∈ issued ops emptyRegistry := by
        rw [hmem]
        rw [hkeys] at hs
        simp only [emptyRegistry] at hs ⊢
        omega
      exact List.count_eq_one_of_mem (issued_nodup ops emptyRegistry) hin
    · rw [if_neg hs]
      apply List.count_eq_zero_of_not_mem
      rw [hmem]
      rw [hkeys] at hs
      simp only [emptyRegistry] at hs ⊢
      omega
  · rw [hn]
    simp [emptyRegistry]

/-- C9: a get leaves the map and the counter as they were, so repeating it any
number of times gives the same result; and in a state reached from the empty
registry, no later operation changes the result of a get of an identifier that
exists. -/
theorem get_read_only (st : Registry) (id : Int) (idStr : String) (n : Nat) :
    (registryGet id st).2 = st
      ∧ (getUser idStr st).1 = st
      ∧ (registryGet id ((fun s => (registryGet id s).2)^[n] st)).1 = (registryGet id st).1
      ∧ (getUser idStr ((fun s => (getUser idStr s).1)^[n] st)).2 = (getUser idStr st).2
      ∧ (∀ ops more : List Op,
          ((registryGet id (run ops emptyRegistry)).1).isSome = true →
            (registryGet id (run more (run ops emptyRegistry))).1
              = (registryGet id (run ops emptyRegistry)).1) := by
  refine ⟨rfl, getUser_state idStr st, ?_, ?_, ?_⟩
  · rw [Function.iterate_fixed (by rfl) n]
  · rw [Function.iterate_fixed (getUser_state idStr st) n]
  · intro ops more hex
    simp only [registryGet] at hex ⊢
    rw [run_empty_isSome] at hex
    exact run_lookup_of_le more _ id hex.2

/-- C9 at a concrete input: the record stored under 1 is still what a get of 1 finds
after a further create. -/
theorem get_read_only_witness :
    (registryGet 1 (run [Op.create { Name := "Grace" }]
        (run [Op.create { Name := "Ada" }] emptyRegistry))).1
      = (registryGet 1 (run [Op.create { Name := "Ada" }] emptyRegistry)).1 :=
  (get_read_only emptyRegistry 1 "1" 0).2.2.2.2
    [Op.create { Name := "Ada" }] [Op.create { Name := "Grace" }] (by decide)

/-- C10: a create request answered 400 leaves the map and the counter exactly as they
were; it is one whose body failed to decode or decoded to an empty name; and in a
state reached from the empty registry the next successful create is issued the old
`nextID` plus one. -/
theorem createUsers_rejected_atomic (body : DecodeOutcome) (st : Registry)
    (h : (createUsers body st).2.status = StatusBadRequest) :
    (createUsers body st).1 = st
      ∧ ((∃ err, Decode body { Name := "" } = Except.error err)
          ∨ Decode body { Name := "" } = Except.ok { Name := "" })
      ∧ ∀ ops, st = run ops emptyRegistry → ∀ name, name ≠ "" →
          (createUsers (DecodeOutcome.object (some name)) (createUsers body st).1).2
              = { status := StatusCreated,
                  body := Body.created ((run ops emptyRegistry).nextID + 1) name }
            ∧ (createUsers (DecodeOutcome.object (some name))
                (createUsers body st).1).1.userCache ((run ops emptyRegistry).nextID + 1)
              = some { Name := name } := by
  have hst : (createUsers body st).1 = st
      ∧ ((∃ err, Decode body { Name := "" } = Except.error err)
          ∨ Decode body { Name := "" } = Except.ok { Name := "" }) := by
    unfold createUsers at h ⊢
    cases hd : Decode body { Name := "" } with
    | error err => exact ⟨rfl, Or.inl ⟨err, rfl⟩⟩
    | ok user =>
      rw [hd] at h
      by_cases hn : user.Name = ""
      · simp only [hn, if_true]
        refine ⟨trivial, Or.inr ?_⟩
        cases user
        simp only at hn
        simp [hn]
      · simp [hn, createdResponse, StatusCreated, StatusBadRequest] at h
  refine ⟨hst.1, hst.2, ?_⟩
  intro ops hops name hname
  rw [hst.1, createUsers_ok name st hname]
  subst hops
  refine ⟨rfl, ?_⟩
  simp [registryCreate_lookup]

/-- C10 at a concrete input: after one create, a request with an empty name and a
request whose body does not decode are rejected and leave the registry as it was, and
the create of "Grace" that follows is issued 2. -/
theorem createUsers_rejected_atomic_witness :
    (createUsers (DecodeOutcome.object (some ""))
        (run [Op.create { Name := "Ada" }] emptyRegistry)).1
        = run [Op.create { Name := "Ada" }] emptyRegistry
      ∧ (createUsers (DecodeOutcome.object (some "Grace"))
          (createUsers (DecodeOutcome.failed "unexpected EOF")
            (run [Op.create { Name := "Ada" }] emptyRegistry)).1).2
        = { status := 201, body := Body.created 2 "Grace" } :=
  ⟨(createUsers_rejected_atomic (DecodeOutcome.object (some ""))
      (run [Op.create { Name := "Ada" }] emptyRegistry) rfl).1,
    ((createUsers_rejected_atomic (DecodeOutcome.failed "unexpected EOF")
      (run [Op.create { Name := "Ada" }] emptyRegistry) rfl).2.2
        [Op.create { Name := "Ada" }] rfl "Grace" (by decide)).1⟩

end PureHttpSpace
